import Mathlib

/-!
Verification of the A_I_Defend scan-orchestration system against its
natural-language specification.

The repository dump contains the frontend (Vue views and the Pinia defense
store), the SQL schemas and the documentation; the control-plane backend
(Agent Registry, Assignment Queue, Scan Runner, Scan Lifecycle Manager and
the feedback endpoint) is not in the dump.  Frontend behaviour is embedded
directly from the JavaScript source; backend behaviour is modelled from the
specification, with each such definition marked `Modelled from the spec:` in
its doc comment.

JavaScript conventions used by the embedding: a nullable string field such
as `detection.feedback` is `Option String` (`none` = `null`/`undefined`);
JavaScript truthiness of such a value is `jsTruthy` (only `null`/`undefined`
and the empty string are falsy among these values).
-/

namespace AIDefend

/-- JavaScript truthiness of a nullable string value: `null`/`undefined`
(`none`) and the empty string are falsy, every other string is truthy. -/
def jsTruthy : Option String → Bool
  | none => false
  | some s => !(s == "")

/-! ## Frontend: `src/frontend/src/stores/defense.js` -/

/-- A detection record as the defense store sees it: only the `feedback`
column matters to `updateStats` (`null`, `confirmed_threat` or
`false_positive` in the schema of `detections`). -/
structure Detection where
  id : Nat
  feedback : Option String
  deriving DecidableEq, Repr

/-- The `stats` ref of the defense store. -/
structure Stats where
  totalEvents : Nat
  openDetections : Nat
  threatsBlocked : Nat
  falsePositives : Nat
  deriving DecidableEq, Repr

/-- Embedding of `updateStats(detections)` from `defense.js`:
`openDets = detections.filter(d => !d.feedback || d.feedback === null)`,
`confirmedThreats = detections.filter(d => d.feedback === 'confirmed_threat')`,
`falsePos = detections.filter(d => d.feedback === 'false_positive')`, and
`stats = { totalEvents: events.value.length, openDetections: openDets.length,
threatsBlocked: confirmedThreats.length, falsePositives: falsePos.length }`.
`events` stands for the store's separately fetched `events.value` list. -/
def updateStats (events : List Nat) (detections : List Detection) : Stats :=
  let openDets := detections.filter fun d => (!jsTruthy d.feedback) || (d.feedback == none)
  let confirmedThreats := detections.filter fun d => d.feedback == some "confirmed_threat"
  let falsePos := detections.filter fun d => d.feedback == some "false_positive"
  { totalEvents := events.length
    openDetections := openDets.length
    threatsBlocked := confirmedThreats.length
    falsePositives := falsePos.length }

/-! ## Frontend: `src/frontend/src/views/DetectionsView.vue` -/

/-- One item of a JavaScript `switch` body: a `case` label or a bare
`return` statement. -/
inductive SwitchItem where
  | caseLabel (l : String)
  | ret (v : String)
  deriving DecidableEq, Repr

/-- JavaScript execution of switch statements once a matching `case` label
has been found: labels are transparent, the first `return` exits with its
value, falling off the end yields `undefined` (`none`). -/
def runFrom : List SwitchItem → Option String
  | [] => none
  | .caseLabel _ :: rest => runFrom rest
  | .ret v :: _ => some v

/-- JavaScript `switch (scrut)` over a nullable-string scrutinee: scan for
the first `case` label strictly equal (`===`) to the scrutinee and execute
from there; with no matching label and no `default`, the function returns
`undefined` (`none`). -/
def runSwitch (scrut : Option String) : List SwitchItem → Option String
  | [] => none
  | .caseLabel l :: rest =>
      if scrut == some l then runFrom rest else runSwitch scrut rest
  | .ret _ :: rest => runSwitch scrut rest

/-- The body of `getStatusBadgeClass` in `DetectionsView.vue`, statement by
statement: `case 'confirmed_threat': return 'bg-red-100 text-red-800';
case 'false_positive': return 'bg-yellow-100 text-yellow-800';
return 'bg-blue-100 text-blue-800';` — the final `return` has no `case`
label of its own and follows an unconditional `return`, and the switch has
no `default`. -/
def getStatusBadgeClassBody : List SwitchItem :=
  [ .caseLabel "confirmed_threat", .ret "bg-red-100 text-red-800"
  , .caseLabel "false_positive", .ret "bg-yellow-100 text-yellow-800"
  , .ret "bg-blue-100 text-blue-800" ]

/-- Embedding of `getStatusBadgeClass(status)` from `DetectionsView.vue`. -/
def getStatusBadgeClass (status : Option String) : Option String :=
  runSwitch status getStatusBadgeClassBody

/-- Embedding of `getStatusLabel(status)` from `DetectionsView.vue`: its
switch has a `default: return 'New'` branch. -/
def getStatusLabel (status : Option String) : String :=
  if status == some "confirmed_threat" then "Threat"
  else if status == some "false_positive" then "False Positive"
  else "New"

/-- Per-poll reply of `GET /scans/{scan_id}` as `runManualScan` inspects it:
`statusData.status` compared against the strings `'completed'` and
`'failed'`; in the failed case `statusData.error` is a nullable string. -/
inductive PollReply where
  | completed
  | failed (error : Option String)
  | other (status : String)
  deriving DecidableEq, Repr

/-- Whether a poll reply ends the loop (`status === 'completed'` or
`status === 'failed'`). -/
def PollReply.isTerminal : PollReply → Bool
  | .completed => true
  | .failed _ => true
  | .other _ => false

/-- Outcome of `runManualScan`'s polling phase: the `completed` branch
refreshes detections and breaks; the `failed` branch throws
`statusData.error || 'Scan failed'`; exhausting all attempts throws
`'Scan timed out'`. -/
inductive PollOutcome where
  | completedOk
  | failedErr (msg : String)
  | timedOut
  deriving DecidableEq, Repr

/-- JavaScript `x || 'Scan failed'` on the nullable `statusData.error`. -/
def jsOrElse (x : Option String) (dflt : String) : String :=
  match x with
  | none => dflt
  | some s => if s == "" then dflt else s

/-- Embedding of the `while (attempts < maxAttempts)` loop of
`runManualScan` in `DetectionsView.vue`.  `replies i` is the reply of the
poll made with `attempts = i`; `remaining = maxAttempts − attempts` shrinks
by one each non-terminal iteration.  Returns the outcome together with the
number of polls performed.  On `completed` the loop breaks before
`attempts++`, so the final `if (attempts >= maxAttempts)` never fires on
that path. -/
def pollFrom (replies : Nat → PollReply) (attempts remaining : Nat) :
    PollOutcome × Nat :=
  match remaining with
  | 0 => (.timedOut, 0)
  | r + 1 =>
      match replies attempts with
      | .completed => (.completedOk, 1)
      | .failed e => (.failedErr (jsOrElse e "Scan failed"), 1)
      | .other _ =>
          let (out, n) := pollFrom replies (attempts + 1) r
          (out, n + 1)

/-- Source: `maxAttempts = 60; // 5 minutes max (5 seconds * 60 = 300 seconds)` -/
def maxAttempts : Nat := 60

/-- The whole polling phase of `runManualScan`: start at `attempts = 0`
with `maxAttempts = 60`. -/
def runManualScanPolls (replies : Nat → PollReply) : PollOutcome × Nat :=
  pollFrom replies 0 maxAttempts

/-! ## Frontend: `src/frontend/src/views/AgentsView.vue` -/

/-- An agent record as `fetchAgents` sees it; `lastHeartbeat` and the
current time are millisecond timestamps (integers, as a JavaScript `Date`
difference can be negative for a future heartbeat). -/
structure AgentRec where
  agentId : Nat
  lastHeartbeat : Int
  deriving DecidableEq, Repr

/-- Source: `const staleThreshold = 5 * 60 * 1000; // 5 minutes in milliseconds` -/
def staleThreshold : Int := 5 * 60 * 1000

/-- Embedding of the filter inside `fetchAgents` in `AgentsView.vue`:
`agents.value = allAgents.filter(agent => { const timeSinceHeartbeat =
now - lastHeartbeat; return timeSinceHeartbeat < staleThreshold; })`. -/
def fetchAgentsFilter (now : Int) (allAgents : List AgentRec) :
    List AgentRec :=
  allAgents.filter fun agent => now - agent.lastHeartbeat < staleThreshold

/-! ## Backend store mutation for operator feedback

The FastAPI backend is not in the dump; `POST /feedback` is modelled from
the spec. -/

/-- Modelled from the spec: the `POST feedback(detection_id, feedback)`
boundary operation (§6) whose implementation is not in the dump.  Per §3 a
Detection is "mutated only by operator feedback", and the `detections`
table of the schema stores a single `feedback TEXT` column per row, so the
operation sets the `feedback` field of the identified detection to the
submitted value. -/
def applyFeedback (detections : List Detection) (detectionId : Nat)
    (feedback : String) : List Detection :=
  detections.map fun d =>
    if d.id = detectionId then { d with feedback := some feedback } else d

/-! ## Backend: Agent Registry and Assignment Queue

The control-plane backend is not in the dump; the per-agent state and the
operations `Register`, `Heartbeat`, `Enqueue` and `ReportResult` are
modelled from §3–§5 of the spec.  §5 requires the registry to serialize
`Heartbeat`/`ReportResult`/`Enqueue` per agent, so a set of concurrent
calls for one agent is modelled as an arbitrary sequence of atomic calls.
All operations below act on a single agent's state; per §5 no cross-agent
coordination is involved. -/

/-- Agent status per §3: `status ∈ {idle, scanning, error}`. -/
inductive AgentStatus where
  | idle
  | scanning
  | error
  deriving DecidableEq, Repr

/-- Assignment status per §3: `{pending, delivered, completed, failed}`. -/
inductive AsgStatus where
  | pending
  | delivered
  | completed
  | failed
  deriving DecidableEq, Repr

/-- An assignment status is non-terminal when it is `pending` or
`delivered`. -/
def AsgStatus.nonTerminal : AsgStatus → Bool
  | .pending => true
  | .delivered => true
  | .completed => false
  | .failed => false

/-- The occupant of an agent's single-slot mailbox (§9): the assignment's
identity and its delivery status. -/
structure SlotAssignment where
  id : Nat
  status : AsgStatus
  deriving DecidableEq, Repr

/-- Modelled from the spec: the per-agent portion of the Agent Registry's
state (§3) together with the agent's single-slot mailbox of the Assignment
Queue (§4.4, §9).  A terminal Assignment is archived (§3), i.e. removed
from the slot. -/
structure AgentState where
  status : AgentStatus
  lastHeartbeat : Int
  slot : Option SlotAssignment
  currentAssignment : Option Nat
  deriving DecidableEq, Repr

/-- Staleness, derived at read time (§3): `now − last_heartbeat >
5 minutes`. -/
def staleAt (now : Int) (st : AgentState) : Bool :=
  now - st.lastHeartbeat > staleThreshold

/-- Whether the agent already has a non-terminal Assignment. -/
def hasNonTerminal (st : AgentState) : Bool :=
  match st.slot with
  | some a => a.status.nonTerminal
  | none => false

/-- Number of non-terminal Assignments held for the agent (0 or 1, since
the mailbox is single-slot). -/
def nonTerminalCount (st : AgentState) : Nat :=
  match st.slot with
  | some a => if a.status.nonTerminal then 1 else 0
  | none => 0

/-- Modelled from the spec: `Register` (§4.3) "creates or refreshes an
Agent record in `idle` status with a fresh `last_heartbeat`"; a fresh
record has no assignment. -/
def registerAgent (now : Int) : AgentState :=
  { status := .idle, lastHeartbeat := now, slot := none
    currentAssignment := none }

/-- Modelled from the spec: `Heartbeat(agent_id)` (§4.3) "updates
`last_heartbeat`; if the agent has a `pending` Assignment queued, marks it
`delivered`, sets agent `status = scanning`,
`current_assignment = assignment_id`, and returns it to the caller;
otherwise returns none."  The pending→delivered flip is the §9 atomic
compare-and-swap on delivery state. -/
def heartbeat (now : Int) (st : AgentState) : AgentState × Option Nat :=
  match st.slot with
  | some a =>
      if a.status = .pending then
        ({ status := .scanning, lastHeartbeat := now
           slot := some { a with status := .delivered }
           currentAssignment := some a.id }, some a.id)
      else ({ st with lastHeartbeat := now }, none)
  | none => ({ st with lastHeartbeat := now }, none)

/-- The serialized execution of a sequence of `Heartbeat` calls for one
agent (§5 requires per-agent serialization, so any set of concurrent
heartbeats linearizes into such a sequence); returns the final state and
the list of per-call results. -/
def heartbeatSeq (times : List Int) (st : AgentState) :
    AgentState × List (Option Nat) :=
  match times with
  | [] => (st, [])
  | t :: rest =>
      let (st1, r) := heartbeat t st
      let (st2, rs) := heartbeatSeq rest st1
      (st2, r :: rs)

/-- The `AssignmentError` taxonomy per §7: surfaced directly to the caller of
`assign`. -/
inductive AssignmentError where
  | agentBusy
  | agentOffline
  | notFound
  deriving DecidableEq, Repr

/-- Modelled from the spec: `Enqueue(agent_id, spec)` (§4.4) "fails with
`AgentBusy` if the agent already has a non-terminal Assignment, and with
`AgentOffline` if the agent is currently stale" (checks in the spec's
order); otherwise it places a fresh `pending` Assignment in the agent's
single slot.  An error mutates nothing. -/
def enqueue (now : Int) (newId : Nat) (st : AgentState) :
    Except AssignmentError (AgentState × Nat) :=
  if hasNonTerminal st then .error .agentBusy
  else if staleAt now st then .error .agentOffline
  else .ok ({ st with slot := some { id := newId, status := .pending } },
            newId)

/-- The `AgentProtocolError` taxonomy per §7: out-of-band or duplicate reports are
rejected with no state mutation. -/
inductive AgentProtocolError where
  | noDeliveredAssignment
  deriving DecidableEq, Repr

/-- The terminal status an agent reports for its assignment. -/
inductive ReportStatus where
  | completed
  | failed
  deriving DecidableEq, Repr

/-- Modelled from the spec: `ReportResult` (§4.3) is "accepted only if
`agent_id` has a `delivered` Assignment; transitions the Assignment to
`completed`/`failed`, releases the agent back to `idle`, clears
`current_assignment`"; the now-terminal Assignment is archived out of the
slot (§3). -/
def reportResult (st : AgentState) (rs : ReportStatus) :
    Except AgentProtocolError AgentState :=
  match st.slot with
  | some a =>
      if a.status = .delivered then
        .ok { st with
              slot := none
              status := .idle
              currentAssignment := none }
      else .error .noDeliveredAssignment
  | none => .error .noDeliveredAssignment

/-- The §8 registry invariant: `status == scanning` iff
`current_assignment` is set. -/
def ScanningIffAssigned (st : AgentState) : Prop :=
  st.status = .scanning ↔ st.currentAssignment.isSome

/-! ## Backend: Scan Runner (modelled from §4.1, §4.2, §7) -/

/-- The `ToolError` taxonomy per §4.1/§7: `Timeout`, `Unavailable`,
`ExecutionFailed` — local to one adapter. -/
inductive ToolError where
  | timeout
  | unavailable
  | executionFailed
  deriving DecidableEq, Repr

/-- A Finding per §3: tool name, severity, title (the structured
`details` are a black box to the engine). -/
structure Finding where
  tool : String
  severity : String
  title : String
  deriving DecidableEq, Repr

/-- The terminal result of one Tool Adapter within a run (§4.1):
`run(...) → Result<list<Finding>, ToolError>`. -/
abbrev AdapterResult : Type := Except ToolError (List Finding)

/-- Whether one adapter produced output (succeeded). -/
def adapterOk (p : String × AdapterResult) : Bool :=
  match p.2 with
  | .ok _ => true
  | .error _ => false

/-- ScanRequest status per §3: `{queued, running, completed, failed}`. -/
inductive ScanStatus where
  | queued
  | running
  | completed
  | failed
  deriving DecidableEq, Repr, Fintype

/-- The Scan Runner's aggregated outcome: the terminal ScanRequest status
it drives together with the typed accumulator
`{successes: [...], failures: [...]}` of §9. -/
structure RunnerOutcome where
  status : ScanStatus
  findings : List Finding
  errors : List (String × ToolError)
  deriving DecidableEq, Repr

/-- Modelled from the spec: the Scan Runner's aggregation (§4.2, §9),
applied to the per-adapter terminal results (name, `Result`) of one run —
the fan-in point after every adapter has reached a terminal state.
Successful adapters' findings are collected, failed adapters appear only
in the error summary, and the run maps to `failed` exactly when scanners
were requested and *all* of them failed, else to `completed`. -/
def scanRunner (results : List (String × AdapterResult)) : RunnerOutcome :=
  { status :=
      if !results.isEmpty && results.all (fun p => !adapterOk p) then .failed
      else .completed
    findings := (results.map fun p =>
      match p.2 with
      | .ok fs => fs
      | .error _ => []).flatten
    errors := results.filterMap fun p =>
      match p.2 with
      | .error e => some (p.1, e)
      | .ok _ => none }

/-! ## Backend: Scan Lifecycle Manager (modelled from §4.5) -/

/-- Modelled from the spec: the Scan Lifecycle Manager's transition
relation (§4.5) — `queued → running`, `running → completed`,
`running → failed`, nothing else; `completed` and `failed` are
terminal. -/
def scanStepAllowed : ScanStatus → ScanStatus → Bool
  | .queued, .running => true
  | .running, .completed => true
  | .running, .failed => true
  | _, _ => false

/-- Progress rank of a lifecycle state: `queued` before `running` before
the terminal states. -/
def scanRank : ScanStatus → Nat
  | .queued => 0
  | .running => 1
  | .completed => 2
  | .failed => 2

/-- A ScanRequest record per §3 (the fields `scan_status` exposes per
§6). -/
structure ScanRequestRec where
  scanId : Nat
  status : ScanStatus
  startTime : Int
  endTime : Option Int
  results : List Finding
  error : Option String
  deriving DecidableEq, Repr

/-- The reply shape of `GET scan_status(scan_id)` per §6:
`{status, start_time, end_time?, results?, error?}`. -/
structure StatusView where
  status : ScanStatus
  startTime : Int
  endTime : Option Int
  results : List Finding
  error : Option String
  deriving DecidableEq, Repr

/-- The view `scan_status` computes from a ScanRequest. -/
def scanView (s : ScanRequestRec) : StatusView :=
  { status := s.status, startTime := s.startTime, endTime := s.endTime
    results := s.results, error := s.error }

/-- Modelled from the spec: a `scan_status` read (§4.5) — "no transition
happens as a side effect of a status read": it returns the view and the
ScanRequest exactly as it was. -/
def readScanStatus (s : ScanRequestRec) : StatusView × ScanRequestRec :=
  (scanView s, s)

/-- One observation step between two successive polls of the same
ScanRequest: either no engine transition happened, or one allowed
lifecycle transition did. -/
def scanEvolve (a b : ScanStatus) : Prop :=
  a = b ∨ scanStepAllowed a b = true

/-! ## Theorems -/

/-- The three `updateStats` filters partition a detections list whose
feedback values all lie in the schema's three-valued domain. -/
theorem filter_buckets_length (l : List Detection)
    (h : ∀ d ∈ l, d.feedback = none ∨ d.feedback = some "confirmed_threat"
        ∨ d.feedback = some "false_positive") :
    (l.filter fun d => (!jsTruthy d.feedback) || (d.feedback == none)).length
      + (l.filter fun d => d.feedback == some "confirmed_threat").length
      + (l.filter fun d => d.feedback == some "false_positive").length
      = l.length := by
  induction l with
  | nil => rfl
  | cons d t ih =>
    have hd := h d (List.mem_cons_self d t)
    have ih2 := ih fun x hx => h x (List.mem_cons_of_mem d hx)
    rcases hd with h1 | h1 | h1
    · have p1 : ((!jsTruthy d.feedback) || (d.feedback == none)) = true := by
        rw [h1]; decide
      have p2 : (d.feedback == some "confirmed_threat") = false := by
        rw [h1]; decide
      have p3 : (d.feedback == some "false_positive") = false := by
        rw [h1]; decide
      simp [List.filter_cons, p1, p2, p3]
      omega
    · have p1 : ((!jsTruthy d.feedback) || (d.feedback == none)) = false := by
        rw [h1]; decide
      have p2 : (d.feedback == some "confirmed_threat") = true := by
        rw [h1]; decide
      have p3 : (d.feedback == some "false_positive") = false := by
        rw [h1]; decide
      simp [List.filter_cons, p1, p2, p3]
      omega
    · have p1 : ((!jsTruthy d.feedback) || (d.feedback == none)) = false := by
        rw [h1]; decide
      have p2 : (d.feedback == some "confirmed_threat") = false := by
        rw [h1]; decide
      have p3 : (d.feedback == some "false_positive") = true := by
        rw [h1]; decide
      simp [List.filter_cons, p1, p2, p3]
      omega

/-- C8: on a detections list whose feedback values are all `null`,
`confirmed_threat` or `false_positive`, `updateStats` counts every
detection in exactly one of `openDetections`, `threatsBlocked`,
`falsePositives`, so the three counts sum to the list's length; and
`totalEvents` is the length of the store's events list, not of the
detections argument. -/
theorem updateStats_buckets (events : List Nat) (detections : List Detection)
    (h : ∀ d ∈ detections,
        d.feedback = none ∨ d.feedback = some "confirmed_threat"
        ∨ d.feedback = some "false_positive") :
    (updateStats events detections).openDetections
        + (updateStats events detections).threatsBlocked
        + (updateStats events detections).falsePositives
      = detections.length
    ∧ (updateStats events detections).totalEvents = events.length := by
  exact ⟨filter_buckets_length detections h, rfl⟩

/-- Witness for `updateStats_buckets` at a three-element detections list
and a one-element events list. -/
theorem updateStats_buckets_witness :
    (∀ d ∈ [({ id := 1, feedback := none } : Detection),
            { id := 2, feedback := some "confirmed_threat" },
            { id := 3, feedback := some "false_positive" }],
        d.feedback = none ∨ d.feedback = some "confirmed_threat"
        ∨ d.feedback = some "false_positive")
    ∧ ((updateStats [7] [({ id := 1, feedback := none } : Detection),
            { id := 2, feedback := some "confirmed_threat" },
            { id := 3, feedback := some "false_positive" }]).openDetections
        + (updateStats [7] [({ id := 1, feedback := none } : Detection),
            { id := 2, feedback := some "confirmed_threat" },
            { id := 3, feedback := some "false_positive" }]).threatsBlocked
        + (updateStats [7] [({ id := 1, feedback := none } : Detection),
            { id := 2, feedback := some "confirmed_threat" },
            { id := 3, feedback := some "false_positive" }]).falsePositives
        = 3
      ∧ (updateStats [7] [({ id := 1, feedback := none } : Detection),
            { id := 2, feedback := some "confirmed_threat" },
            { id := 3, feedback := some "false_positive" }]).totalEvents = 1) :=
  ⟨by decide, updateStats_buckets [7] _ (by decide)⟩

/-- C7: the operator-feedback mutation is idempotent — submitting the same
feedback for the same detection twice leaves the detections store exactly
as after the first submission. -/
theorem applyFeedback_idempotent (detections : List Detection)
    (detectionId : Nat) (feedback : String) :
    applyFeedback (applyFeedback detections detectionId feedback)
        detectionId feedback
      = applyFeedback detections detectionId feedback := by
  induction detections with
  | nil => rfl
  | cons d t ih =>
    simp only [applyFeedback, List.map_cons] at ih ⊢
    by_cases hid : d.id = detectionId <;> simp [hid, ih]

/-- The function `getStatusBadgeClass` computes to a two-way conditional: the trailing
`return 'bg-blue-100 text-blue-800'` of its switch body has no `case`
label and stands after an unconditional `return`. -/
theorem getStatusBadgeClass_eq (s : Option String) :
    getStatusBadgeClass s
      = (if s == some "confirmed_threat" then some "bg-red-100 text-red-800"
         else if s == some "false_positive" then
           some "bg-yellow-100 text-yellow-800"
         else none) := rfl

/-- C10: for every feedback value other than `confirmed_threat` and
`false_positive` — the `null` feedback of an unreviewed detection
included — `getStatusBadgeClass` returns `undefined` (no CSS class): its
blue branch is unreachable dead code and its switch has no default;
`getStatusLabel`, by contrast, is total and returns `New` for every such
value. -/
theorem getStatusBadgeClass_dead_blue_getStatusLabel_new :
    (∀ s : Option String,
        getStatusBadgeClass s ≠ some "bg-blue-100 text-blue-800")
    ∧ (∀ s : Option String,
        s ≠ some "confirmed_threat" → s ≠ some "false_positive" →
        getStatusBadgeClass s = none ∧ getStatusLabel s = "New") := by
  constructor
  · intro s
    rw [getStatusBadgeClass_eq]
    by_cases h1 : s == some "confirmed_threat" <;>
      by_cases h2 : s == some "false_positive" <;> simp [h1, h2]
  · intro s h1 h2
    have b1 : (s == some "confirmed_threat") = false := by
      simpa using h1
    have b2 : (s == some "false_positive") = false := by
      simpa using h2
    rw [getStatusBadgeClass_eq]
    constructor
    · simp [b1, b2]
    · simp [getStatusLabel, b1, b2]

/-- Witness for `getStatusBadgeClass_dead_blue_getStatusLabel_new` at the
`null` feedback of an unreviewed detection. -/
theorem getStatusBadgeClass_dead_blue_witness :
    ((none : Option String) ≠ some "confirmed_threat")
    ∧ ((none : Option String) ≠ some "false_positive")
    ∧ (getStatusBadgeClass none = none ∧ getStatusLabel none = "New") :=
  ⟨by decide, by decide,
    getStatusBadgeClass_dead_blue_getStatusLabel_new.2 none (by decide)
      (by decide)⟩

/-- The polling loop never performs more polls than it has attempts
left. -/
theorem pollFrom_count_le (replies : Nat → PollReply) :
    ∀ remaining attempts, (pollFrom replies attempts remaining).2 ≤ remaining := by
  intro remaining
  induction remaining with
  | zero => intro attempts; simp [pollFrom]
  | succ r ih =>
      intro attempts
      simp only [pollFrom]
      cases replies attempts with
      | completed => simp
      | failed e => simp
      | other s => simpa using ih (attempts + 1)

/-- If every reply in the window is non-terminal, the loop exhausts the
window and times out, having polled once per attempt. -/
theorem pollFrom_timeout (replies : Nat → PollReply) :
    ∀ remaining attempts,
      (∀ i, i < remaining → (replies (attempts + i)).isTerminal = false) →
      pollFrom replies attempts remaining = (.timedOut, remaining) := by
  intro remaining
  induction remaining with
  | zero => intro attempts _; rfl
  | succ r ih =>
      intro attempts hnt
      have h0 := hnt 0 (Nat.succ_pos r)
      simp only [Nat.add_zero] at h0
      simp only [pollFrom]
      cases hr : replies attempts with
      | completed => rw [hr] at h0; simp [PollReply.isTerminal] at h0
      | failed e => rw [hr] at h0; simp [PollReply.isTerminal] at h0
      | other s =>
          have := ih (attempts + 1) fun i hi => by
            have := hnt (i + 1) (Nat.succ_lt_succ hi)
            simpa [Nat.add_assoc, Nat.add_comm 1 i] using this
          simp [this]

/-- If the first terminal reply in the window is `completed` at relative
position `k`, the loop ends `completedOk` after exactly `k + 1` polls. -/
theorem pollFrom_completed (replies : Nat → PollReply) :
    ∀ remaining attempts k, k < remaining →
      replies (attempts + k) = .completed →
      (∀ j, j < k → (replies (attempts + j)).isTerminal = false) →
      pollFrom replies attempts remaining = (.completedOk, k + 1) := by
  intro remaining
  induction remaining with
  | zero => intro attempts k hk; omega
  | succ r ih =>
      intro attempts k hk hc hnt
      simp only [pollFrom]
      cases k with
      | zero =>
          simp only [Nat.add_zero] at hc
          rw [hc]
      | succ k0 =>
          have h0 := hnt 0 (Nat.succ_pos k0)
          simp only [Nat.add_zero] at h0
          cases hr : replies attempts with
          | completed => rw [hr] at h0; simp [PollReply.isTerminal] at h0
          | failed e => rw [hr] at h0; simp [PollReply.isTerminal] at h0
          | other s =>
              have := ih (attempts + 1) k0 (by omega)
                (by simpa [Nat.add_assoc, Nat.add_comm 1 k0] using hc)
                (fun j hj => by
                  have := hnt (j + 1) (Nat.succ_lt_succ hj)
                  simpa [Nat.add_assoc, Nat.add_comm 1 j] using this)
              simp [this]

/-- If the first terminal reply in the window is `failed` at relative
position `k`, the loop raises `error || 'Scan failed'` after exactly
`k + 1` polls. -/
theorem pollFrom_failed (replies : Nat → PollReply) :
    ∀ remaining attempts k e, k < remaining →
      replies (attempts + k) = .failed e →
      (∀ j, j < k → (replies (attempts + j)).isTerminal = false) →
      pollFrom replies attempts remaining
        = (.failedErr (jsOrElse e "Scan failed"), k + 1) := by
  intro remaining
  induction remaining with
  | zero => intro attempts k e hk; omega
  | succ r ih =>
      intro attempts k e hk hc hnt
      simp only [pollFrom]
      cases k with
      | zero =>
          simp only [Nat.add_zero] at hc
          rw [hc]
      | succ k0 =>
          have h0 := hnt 0 (Nat.succ_pos k0)
          simp only [Nat.add_zero] at h0
          cases hr : replies attempts with
          | completed => rw [hr] at h0; simp [PollReply.isTerminal] at h0
          | failed e2 => rw [hr] at h0; simp [PollReply.isTerminal] at h0
          | other s =>
              have := ih (attempts + 1) k0 e (by omega)
                (by simpa [Nat.add_assoc, Nat.add_comm 1 k0] using hc)
                (fun j hj => by
                  have := hnt (j + 1) (Nat.succ_lt_succ hj)
                  simpa [Nat.add_assoc, Nat.add_comm 1 j] using this)
              simp [this]

/-- C9: the status-polling loop of `runManualScan` always terminates
within 60 polls; it exits as soon as a poll reports `completed` (the
detections-refresh path) or `failed` (raising `statusData.error ||
'Scan failed'`), after exactly one poll past the first terminal reply;
and when all 60 polls see a non-terminal status it raises the client-side
`Scan timed out` error regardless of the server-side scan. -/
theorem runManualScan_poll_loop (replies : Nat → PollReply) :
    (runManualScanPolls replies).2 ≤ 60
    ∧ ((∀ i, i < 60 → (replies i).isTerminal = false) →
        runManualScanPolls replies = (.timedOut, 60))
    ∧ (∀ k, k < 60 → replies k = .completed →
        (∀ j, j < k → (replies j).isTerminal = false) →
        runManualScanPolls replies = (.completedOk, k + 1))
    ∧ (∀ k e, k < 60 → replies k = .failed e →
        (∀ j, j < k → (replies j).isTerminal = false) →
        runManualScanPolls replies
          = (.failedErr (jsOrElse e "Scan failed"), k + 1)) := by
  refine ⟨pollFrom_count_le replies 60 0, ?_, ?_, ?_⟩
  · intro hnt
    exact pollFrom_timeout replies 60 0 fun i hi => by
      simpa using hnt i hi
  · intro k hk hc hnt
    exact pollFrom_completed replies 60 0 k hk (by simpa using hc)
      fun j hj => by simpa using hnt j hj
  · intro k e hk hc hnt
    exact pollFrom_failed replies 60 0 k e hk (by simpa using hc)
      fun j hj => by simpa using hnt j hj

/-- Witness for `runManualScan_poll_loop`: a scan whose very first poll
reports `completed` ends the loop after one poll. -/
theorem runManualScan_poll_loop_witness :
    (0 < 60 ∧ (fun _ : Nat => PollReply.completed) 0 = PollReply.completed)
    ∧ runManualScanPolls (fun _ => PollReply.completed)
        = (.completedOk, 0 + 1) :=
  ⟨⟨by decide, rfl⟩,
    (runManualScan_poll_loop (fun _ => PollReply.completed)).2.2.1 0
      (by decide) rfl (fun j hj => absurd hj (by omega))⟩

/-- C3 counterexample: an agent whose last heartbeat is exactly 5 minutes
(300000 ms) old — hence at most 5 minutes old — is nonetheless excluded by
the `fetchAgents` staleness filter, because the source tests
`timeSinceHeartbeat < staleThreshold` strictly; this falsifies the claim
that every agent whose last heartbeat is at most 5 minutes old is
included. -/
theorem fetchAgents_boundary_excluded :
    ((300000 : Int) - ({ agentId := 1, lastHeartbeat := 0 } :
        AgentRec).lastHeartbeat ≤ 5 * 60 * 1000)
    ∧ fetchAgentsFilter 300000 [{ agentId := 1, lastHeartbeat := 0 }]
      = [] := by
  constructor
  · decide
  · rfl

/-- C3 (amended): `fetchAgents` derives staleness at read time from
`now − last_heartbeat` alone; an agent is listed iff it was fetched and
`now − last_heartbeat < 5 minutes` — so every agent more than 5 minutes
old is excluded (a 6-minutes-ago heartbeat in particular), every agent
strictly less than 5 minutes old is included, and an agent exactly
5 minutes old is excluded as well. -/
theorem fetchAgentsFilter_strict (now : Int) (allAgents : List AgentRec)
    (a : AgentRec) :
    a ∈ fetchAgentsFilter now allAgents
      ↔ a ∈ allAgents ∧ now - a.lastHeartbeat < staleThreshold := by
  simp [fetchAgentsFilter, List.mem_filter]

/-- Witness for `fetchAgentsFilter_strict`: an agent 100 ms old is
listed. -/
theorem fetchAgentsFilter_strict_witness :
    ({ agentId := 2, lastHeartbeat := 100 } : AgentRec)
      ∈ fetchAgentsFilter 200 [{ agentId := 2, lastHeartbeat := 100 }] :=
  (fetchAgentsFilter_strict 200 [{ agentId := 2, lastHeartbeat := 100 }]
    { agentId := 2, lastHeartbeat := 100 }).mpr ⟨by decide, by decide⟩

/-- A heartbeat hands out assignment `aid` only when the slot held `aid`
still `pending`, and it flips the slot to `delivered` in the same atomic
step. -/
theorem heartbeat_delivers_from_pending (t : Int) (st : AgentState)
    (aid : Nat) (h : (heartbeat t st).2 = some aid) :
    st.slot = some { id := aid, status := .pending }
    ∧ (heartbeat t st).1.slot = some { id := aid, status := .delivered } := by
  obtain ⟨sst, lhb, slot, ca⟩ := st
  cases slot with
  | none => simp [heartbeat] at h
  | some a =>
      obtain ⟨i, s⟩ := a
      cases s with
      | pending =>
          simp [heartbeat] at h
          subst h
          simp [heartbeat]
      | delivered => simp [heartbeat] at h
      | completed => simp [heartbeat] at h
      | failed => simp [heartbeat] at h

/-- A heartbeat whose agent does not hold `aid` pending neither delivers
`aid` nor makes `aid` pending. -/
theorem heartbeat_preserves_not_pending (t : Int) (st : AgentState)
    (aid : Nat)
    (h : st.slot ≠ some { id := aid, status := AsgStatus.pending }) :
    (heartbeat t st).1.slot ≠ some { id := aid, status := .pending }
    ∧ (heartbeat t st).2 ≠ some aid := by
  obtain ⟨sst, lhb, slot, ca⟩ := st
  cases slot with
  | none => simp [heartbeat]
  | some a =>
      obtain ⟨i, s⟩ := a
      cases s with
      | pending =>
          have hia : i ≠ aid := by
            intro he
            exact h (by rw [he])
          simp [heartbeat, hia]
      | delivered => simp [heartbeat]
      | completed => simp [heartbeat]
      | failed => simp [heartbeat]

/-- A serialized run of heartbeats starting from a state in which `aid` is
not pending never delivers `aid`. -/
theorem heartbeatSeq_no_delivery (aid : Nat) :
    ∀ (times : List Int) (st : AgentState),
      st.slot ≠ some { id := aid, status := AsgStatus.pending } →
      List.count (some aid) (heartbeatSeq times st).2 = 0 := by
  intro times
  induction times with
  | nil => intro st _; rfl
  | cons t rest ih =>
      intro st h
      have hp := heartbeat_preserves_not_pending t st aid h
      simp only [heartbeatSeq]
      rw [List.count_cons]
      rw [ih (heartbeat t st).1 hp.1]
      simp [hp.2]

/-- C1: under the per-agent serialization required by §5, any linearized
set of `Heartbeat` calls delivers a given Assignment at most once — no two
calls both receive it; when the Assignment is pending and at least one
heartbeat occurs, it is delivered to exactly one call; and once it has
been delivered (slot already `delivered`), no later heartbeat returns it
again. -/
theorem heartbeat_exactly_once (aid : Nat) :
    ∀ (times : List Int) (st : AgentState),
      List.count (some aid) (heartbeatSeq times st).2 ≤ 1
      ∧ (st.slot = some { id := aid, status := .pending } → times ≠ [] →
          List.count (some aid) (heartbeatSeq times st).2 = 1)
      ∧ (st.slot = some { id := aid, status := .delivered } →
          List.count (some aid) (heartbeatSeq times st).2 = 0) := by
  intro times
  induction times with
  | nil =>
      intro st
      refine ⟨by simp [heartbeatSeq], fun _ hne => absurd rfl hne,
        fun _ => rfl⟩
  | cons t rest ih =>
      intro st
      have hdel : st.slot = some { id := aid, status := AsgStatus.delivered } →
          List.count (some aid) (heartbeatSeq (t :: rest) st).2 = 0 := by
        intro hs
        refine heartbeatSeq_no_delivery aid (t :: rest) st ?_
        rw [hs]
        intro hc
        simp at hc
      refine ⟨?_, ?_, hdel⟩
      · by_cases hs : st.slot = some { id := aid, status := AsgStatus.pending }
        · have hr : (heartbeat t st).2 = some aid := by
            unfold heartbeat
            rw [hs]
            simp
          have hnext : (heartbeat t st).1.slot
              = some { id := aid, status := AsgStatus.delivered } :=
            (heartbeat_delivers_from_pending t st aid hr).2
          have hzero : List.count (some aid)
              (heartbeatSeq rest (heartbeat t st).1).2 = 0 :=
            heartbeatSeq_no_delivery aid rest (heartbeat t st).1 (by
              rw [hnext]; intro hc; simp at hc)
          simp only [heartbeatSeq]
          rw [List.count_cons, hzero]
          split <;> simp
        · have hno := heartbeatSeq_no_delivery aid (t :: rest) st hs
          omega
      · intro hs _
        have hr : (heartbeat t st).2 = some aid := by
          unfold heartbeat
          rw [hs]
          simp
        have hnext : (heartbeat t st).1.slot
            = some { id := aid, status := AsgStatus.delivered } :=
          (heartbeat_delivers_from_pending t st aid hr).2
        have hzero : List.count (some aid)
            (heartbeatSeq rest (heartbeat t st).1).2 = 0 :=
          heartbeatSeq_no_delivery aid rest (heartbeat t st).1 (by
            rw [hnext]; intro hc; simp at hc)
        simp only [heartbeatSeq]
        rw [List.count_cons, hzero, hr]
        simp

/-- Witness for `heartbeat_exactly_once`: two serialized heartbeats
against an agent holding pending assignment 5 deliver it exactly once. -/
theorem heartbeat_exactly_once_witness :
    (({ status := .idle, lastHeartbeat := 0,
        slot := some { id := 5, status := .pending },
        currentAssignment := none } : AgentState).slot
      = some { id := 5, status := .pending })
    ∧ (([(0 : Int), 30] : List Int) ≠ [])
    ∧ List.count (some 5)
        (heartbeatSeq [(0 : Int), 30]
          { status := .idle, lastHeartbeat := 0,
            slot := some { id := 5, status := .pending },
            currentAssignment := none }).2 = 1 :=
  ⟨rfl, by decide,
    (heartbeat_exactly_once 5 [(0 : Int), 30]
      { status := .idle, lastHeartbeat := 0,
        slot := some { id := 5, status := .pending },
        currentAssignment := none }).2.1 rfl (by decide)⟩

/-- C4: `status == scanning` iff `current_assignment` is set — the
invariant holds for a freshly registered agent and is preserved by every
registry mutation (`Heartbeat`, successful `Enqueue`, accepted
`ReportResult`); moreover a heartbeat that delivers a pending Assignment
sets `status = scanning` and `current_assignment` together in the same
step. -/
theorem registry_scanning_iff_assigned :
    (∀ now : Int, ScanningIffAssigned (registerAgent now))
    ∧ (∀ (now : Int) (st : AgentState), ScanningIffAssigned st →
        ScanningIffAssigned (heartbeat now st).1)
    ∧ (∀ (now : Int) (newId : Nat) (st st2 : AgentState) (i : Nat),
        ScanningIffAssigned st → enqueue now newId st = .ok (st2, i) →
        ScanningIffAssigned st2)
    ∧ (∀ (st st2 : AgentState) (r : ReportStatus),
        reportResult st r = .ok st2 → ScanningIffAssigned st2)
    ∧ (∀ (now : Int) (st : AgentState) (aid : Nat),
        (heartbeat now st).2 = some aid →
        (heartbeat now st).1.status = .scanning
        ∧ (heartbeat now st).1.currentAssignment = some aid) := by
  refine ⟨?_, ?_, ?_, ?_, ?_⟩
  · intro now
    simp [ScanningIffAssigned, registerAgent]
  · intro now st hinv
    obtain ⟨sst, lhb, slot, ca⟩ := st
    cases slot with
    | none => simpa [ScanningIffAssigned, heartbeat] using hinv
    | some a =>
        obtain ⟨i, s⟩ := a
        cases s with
        | pending => simp [ScanningIffAssigned, heartbeat]
        | delivered => simpa [ScanningIffAssigned, heartbeat] using hinv
        | completed => simpa [ScanningIffAssigned, heartbeat] using hinv
        | failed => simpa [ScanningIffAssigned, heartbeat] using hinv
  · intro now newId st st2 i hinv heq
    unfold enqueue at heq
    by_cases hb : hasNonTerminal st
    · simp [hb] at heq
    · by_cases hst : staleAt now st
      · simp [hb, hst] at heq
      · simp only [hb, hst, Bool.false_eq_true, if_false] at heq
        simp only [Except.ok.injEq, Prod.mk.injEq] at heq
        obtain ⟨h2, _⟩ := heq
        subst h2
        simpa [ScanningIffAssigned] using hinv
  · intro st st2 r heq
    unfold reportResult at heq
    cases hs : st.slot with
    | none => rw [hs] at heq; simp at heq
    | some a =>
        rw [hs] at heq
        by_cases hd : a.status = .delivered
        · simp [hd] at heq
          subst heq
          simp [ScanningIffAssigned]
        · simp [hd] at heq
  · intro now st aid h
    obtain ⟨sst, lhb, slot, ca⟩ := st
    cases slot with
    | none => simp [heartbeat] at h
    | some a =>
        obtain ⟨i, s⟩ := a
        cases s with
        | pending =>
            simp [heartbeat] at h
            subst h
            simp [heartbeat]
        | delivered => simp [heartbeat] at h
        | completed => simp [heartbeat] at h
        | failed => simp [heartbeat] at h

/-- Witness for `registry_scanning_iff_assigned`: registration establishes
the invariant and a heartbeat on the fresh agent preserves it; a delivering
heartbeat on a pending agent sets both fields together. -/
theorem registry_scanning_iff_assigned_witness :
    ScanningIffAssigned (registerAgent 0)
    ∧ ScanningIffAssigned (heartbeat 10 (registerAgent 0)).1
    ∧ ((heartbeat 10
          ({ status := .idle
             lastHeartbeat := 0
             slot := some { id := 5, status := .pending }
             currentAssignment := none } : AgentState)).2 = some 5
        ∧ (heartbeat 10
            ({ status := .idle
               lastHeartbeat := 0
               slot := some { id := 5, status := .pending }
               currentAssignment := none } : AgentState)).1.status = .scanning
        ∧ (heartbeat 10
            ({ status := .idle
               lastHeartbeat := 0
               slot := some { id := 5, status := .pending }
               currentAssignment := none } :
              AgentState)).1.currentAssignment = some 5) :=
  ⟨registry_scanning_iff_assigned.1 0,
    registry_scanning_iff_assigned.2.1 10 (registerAgent 0)
      (registry_scanning_iff_assigned.1 0),
    rfl,
    registry_scanning_iff_assigned.2.2.2.2 10 _ 5 rfl⟩

/-- C5: `Enqueue` on an agent holding a non-terminal Assignment always
fails with `AgentBusy` (returning an error, hence leaving the stored state
and its Assignment untouched — never an overwrite); on a non-busy but
currently stale agent it fails with `AgentOffline`; success requires the
agent to be neither busy nor stale and fills the single slot with the new
`pending` Assignment, so at most one non-terminal Assignment ever exists
per agent. -/
theorem enqueue_busy_offline (now : Int) (newId : Nat) (st : AgentState) :
    (hasNonTerminal st = true → enqueue now newId st = .error .agentBusy)
    ∧ (hasNonTerminal st = false → staleAt now st = true →
        enqueue now newId st = .error .agentOffline)
    ∧ (∀ (st2 : AgentState) (i : Nat),
        enqueue now newId st = .ok (st2, i) →
        hasNonTerminal st = false ∧ staleAt now st = false
        ∧ st2.slot = some { id := newId, status := .pending }
        ∧ st2.status = st.status
        ∧ st2.currentAssignment = st.currentAssignment)
    ∧ nonTerminalCount st ≤ 1
    ∧ (∀ (st2 : AgentState) (i : Nat),
        enqueue now newId st = .ok (st2, i) → nonTerminalCount st2 ≤ 1) := by
  refine ⟨?_, ?_, ?_, ?_, ?_⟩
  · intro hb
    simp [enqueue, hb]
  · intro hb hst
    simp [enqueue, hb, hst]
  · intro st2 i heq
    unfold enqueue at heq
    by_cases hb : hasNonTerminal st
    · simp [hb] at heq
    · by_cases hst : staleAt now st
      · simp [hb, hst] at heq
      · simp only [hb, hst, Bool.false_eq_true, if_false] at heq
        simp only [Except.ok.injEq, Prod.mk.injEq] at heq
        obtain ⟨h2, _⟩ := heq
        subst h2
        simp_all
  · unfold nonTerminalCount
    cases st.slot with
    | none => simp
    | some a => by_cases hnt : a.status.nonTerminal <;> simp [hnt]
  · intro st2 i heq
    unfold enqueue at heq
    by_cases hb : hasNonTerminal st
    · simp [hb] at heq
    · by_cases hst : staleAt now st
      · simp [hb, hst] at heq
      · simp only [hb, hst, Bool.false_eq_true, if_false] at heq
        simp only [Except.ok.injEq, Prod.mk.injEq] at heq
        obtain ⟨h2, _⟩ := heq
        subst h2
        simp [nonTerminalCount, AsgStatus.nonTerminal]

/-- Witness for `enqueue_busy_offline`: a busy agent (delivered assignment
in the slot) is refused with `AgentBusy`. -/
theorem enqueue_busy_offline_witness :
    hasNonTerminal
        ({ status := .scanning
           lastHeartbeat := 0
           slot := some { id := 3, status := .delivered }
           currentAssignment := some 3 } : AgentState) = true
    ∧ enqueue 10 7
        ({ status := .scanning
           lastHeartbeat := 0
           slot := some { id := 3, status := .delivered }
           currentAssignment := some 3 } : AgentState)
      = .error .agentBusy :=
  ⟨rfl,
    (enqueue_busy_offline 10 7
      { status := .scanning
        lastHeartbeat := 0
        slot := some { id := 3, status := .delivered }
        currentAssignment := some 3 }).1 rfl⟩

/-- C2: the Scan Runner's run maps to `failed` exactly when scanners were
requested and every requested adapter failed; a single success forces
`completed`; every successful adapter's findings are present in the
aggregate, a failed adapter contributes nothing to the findings and
appears in the error summary instead — so one adapter's `ToolError` never
becomes a whole-scan failure while a sibling succeeded. -/
theorem scanRunner_isolates_failures
    (results : List (String × AdapterResult)) :
    ((scanRunner results).status = .failed
      ↔ results ≠ [] ∧ ∀ p ∈ results, adapterOk p = false)
    ∧ ((∃ p ∈ results, adapterOk p = true) →
        (scanRunner results).status = .completed)
    ∧ (∀ (n : String) (fs : List Finding), (n, Except.ok fs) ∈ results →
        ∀ f ∈ fs, f ∈ (scanRunner results).findings)
    ∧ (∀ (n : String) (e : ToolError), (n, Except.error e) ∈ results →
        (n, e) ∈ (scanRunner results).errors)
    ∧ (∀ f ∈ (scanRunner results).findings,
        ∃ (n : String) (fs : List Finding),
          (n, Except.ok fs) ∈ results ∧ f ∈ fs) := by
  have hstatus : (scanRunner results).status
      = (if !results.isEmpty && results.all (fun p => !adapterOk p)
         then ScanStatus.failed else ScanStatus.completed) := rfl
  refine ⟨?_, ?_, ?_, ?_, ?_⟩
  · rw [hstatus]
    by_cases hc : !results.isEmpty && results.all (fun p => !adapterOk p)
    · rw [if_pos hc]
      simp only [Bool.and_eq_true, Bool.not_eq_true', List.isEmpty_eq_false,
        List.all_eq_true] at hc
      obtain ⟨hne, hall⟩ := hc
      exact ⟨fun _ => ⟨hne, fun p hp => by simpa using hall p hp⟩,
        fun _ => rfl⟩
    · rw [if_neg hc]
      constructor
      · intro h
        exact absurd h (by simp)
      · intro ⟨hne, hall⟩
        exact absurd (by
          simp only [Bool.and_eq_true, Bool.not_eq_true',
            List.isEmpty_eq_false, List.all_eq_true]
          exact ⟨hne, fun p hp => by simpa using hall p hp⟩) hc
  · intro ⟨p, hp, hok⟩
    rw [hstatus]
    rw [if_neg]
    intro hc
    simp only [Bool.and_eq_true, Bool.not_eq_true', List.isEmpty_eq_false,
      List.all_eq_true] at hc
    have := hc.2 p hp
    rw [hok] at this
    exact absurd this (by simp)
  · intro n fs hmem f hf
    show f ∈ (results.map fun p =>
        match p.2 with
        | .ok gs => gs
        | .error _ => []).flatten
    rw [List.mem_flatten]
    refine ⟨fs, ?_, hf⟩
    rw [List.mem_map]
    exact ⟨(n, Except.ok fs), hmem, rfl⟩
  · intro n e hmem
    show (n, e) ∈ results.filterMap fun p =>
        match p.2 with
        | .error e2 => some (p.1, e2)
        | .ok _ => none
    rw [List.mem_filterMap]
    exact ⟨(n, Except.error e), hmem, rfl⟩
  · intro f hf
    have hf2 : f ∈ (results.map fun p =>
        match p.2 with
        | .ok gs => gs
        | .error _ => []).flatten := hf
    rw [List.mem_flatten] at hf2
    obtain ⟨fs, hfs, hmemf⟩ := hf2
    rw [List.mem_map] at hfs
    obtain ⟨p, hp, hpe⟩ := hfs
    obtain ⟨n, r⟩ := p
    cases r with
    | ok gs =>
        simp only at hpe
        subst hpe
        exact ⟨n, _, hp, hmemf⟩
    | error e =>
        simp only at hpe
        subst hpe
        exact absurd hmemf (List.not_mem_nil f)

/-- Witness for `scanRunner_isolates_failures`: the §8 scenario
`{nmap: succeeds, lynis: times out}` completes with nmap's finding present
and lynis only in the error summary. -/
theorem scanRunner_isolates_failures_witness :
    adapterOk ("nmap",
        (Except.ok [{ tool := "nmap", severity := "high",
                      title := "open port 22" }] : AdapterResult)) = true
    ∧ (scanRunner [("nmap",
          (Except.ok [{ tool := "nmap", severity := "high",
                        title := "open port 22" }] : AdapterResult)),
        ("lynis", Except.error .timeout)]).status = .completed :=
  ⟨rfl,
    (scanRunner_isolates_failures
        [("nmap",
          (Except.ok [{ tool := "nmap", severity := "high",
                        title := "open port 22" }] : AdapterResult)),
         ("lynis", Except.error .timeout)]).2.1
      ⟨("nmap",
        (Except.ok [{ tool := "nmap", severity := "high",
                      title := "open port 22" }] : AdapterResult)),
        List.mem_cons_self _ _, rfl⟩⟩

/-- C6: the Scan Lifecycle Manager's status order — each allowed
transition strictly advances the rank `queued < running < terminal`, so a
status never reverses; there is no transition skipping `running`
(`queued` steps only to `running`); terminal states have no outgoing
transitions; along any evolution of a ScanRequest every observed
subsequence of statuses is rank-monotone; and a `scan_status` read
returns the view while leaving the ScanRequest exactly unchanged, so any
number of polls mutates nothing. -/
theorem scan_lifecycle_monotone :
    (∀ a b : ScanStatus, scanStepAllowed a b = true → scanRank a < scanRank b)
    ∧ (∀ b : ScanStatus, scanStepAllowed .queued b = true → b = .running)
    ∧ (∀ b : ScanStatus, scanStepAllowed .completed b = false
        ∧ scanStepAllowed .failed b = false)
    ∧ (∀ run obs : List ScanStatus, List.Chain' scanEvolve run →
        obs.Sublist run →
        obs.Pairwise fun a b => scanRank a ≤ scanRank b)
    ∧ (∀ s : ScanRequestRec, readScanStatus s = (scanView s, s)) := by
  have hrank : ∀ a b : ScanStatus, scanStepAllowed a b = true →
      scanRank a < scanRank b := by decide
  refine ⟨hrank, by decide, by decide, ?_, fun s => rfl⟩
  intro run obs hchain hsub
  have hchain2 : List.Chain' (fun a b => scanRank a ≤ scanRank b) run := by
    refine List.Chain'.imp ?_ hchain
    intro a b hab
    rcases hab with heq | hstep
    · exact le_of_eq (by rw [heq])
    · exact le_of_lt (hrank a b hstep)
  haveI : IsTrans ScanStatus (fun a b => scanRank a ≤ scanRank b) :=
    ⟨fun _ _ _ h1 h2 => le_trans h1 h2⟩
  have hpw : run.Pairwise fun a b => scanRank a ≤ scanRank b :=
    List.chain'_iff_pairwise.mp hchain2
  exact hpw.sublist hsub

/-- Witness for `scan_lifecycle_monotone`: along the run
`queued → running → completed`, the observations `queued, completed` are
rank-monotone. -/
theorem scan_lifecycle_monotone_witness :
    List.Chain' scanEvolve
      [ScanStatus.queued, ScanStatus.running, ScanStatus.completed]
    ∧ List.Sublist [ScanStatus.queued, ScanStatus.completed]
        [ScanStatus.queued, ScanStatus.running, ScanStatus.completed]
    ∧ List.Pairwise (fun a b => scanRank a ≤ scanRank b)
        [ScanStatus.queued, ScanStatus.completed] :=
  ⟨by simp [List.chain'_cons, scanEvolve, scanStepAllowed],
    by simp [List.Sublist],
    scan_lifecycle_monotone.2.2.2.1
      [ScanStatus.queued, ScanStatus.running, ScanStatus.completed]
      [ScanStatus.queued, ScanStatus.completed]
      (by simp [List.chain'_cons, scanEvolve, scanStepAllowed])
      (by simp [List.Sublist])⟩

end AIDefend
